import Mathlib

/-!
Verification development for the USB-Monitor repository.

Shallow embedding of the security / authorization / telemetry core:
DeviceAuthorizer (src security DeviceAuthorizer implementation),
SecurityManager (src/security/SecurityManager.cpp),
DeviceManager with PowerManager and BandwidthMonitor
(DeviceManager, PowerManager, BandwidthMonitor implementations),
and ProtocolAnalyzer (ProtocolAnalyzer implementation).

Machine integers are modelled as Nat with explicit mod where overflow can
matter; wall-clock and steady-clock instants are Nat (seconds for the
authorizer and security manager, milliseconds for the bandwidth monitor);
C++ double arithmetic in speed / error-rate computations is modelled in Q.
-/

namespace USBMonitor

/-! ## Basic enums and data (Types.hpp, SecurityManager.hpp, DeviceAuthorizer.hpp) -/

inductive SecurityLevel
  | Low
  | Medium
  | High
  | Custom
deriving DecidableEq

inductive SecurityEvent
  | DeviceConnected
  | DeviceDisconnected
  | AuthorizationGranted
  | AuthorizationDenied
  | UnauthorizedAccess
  | MaliciousActivityDetected
  | ProtocolViolation
  | PolicyViolation
deriving DecidableEq

inductive AuthorizationMethod
  | Automatic
  | UserPrompt
  | SystemPolicy
  | Certificate
  | Custom
deriving DecidableEq

structure DeviceIdentifier where
  vendorId : ℕ
  productId : ℕ
  busNumber : ℕ
  deviceAddress : ℕ
deriving DecidableEq

-- DeviceClass enum values from Types.hpp (the C++ enum constants used by the
-- authorizer's checks), kept as their numeric codes: UsbDevice::deviceClass is
-- a static_cast of the descriptor's bDeviceClass byte.
def DeviceClassHID : ℕ := 0x03
def DeviceClassPrinter : ℕ := 0x07
def DeviceClassMassStorage : ℕ := 0x08
def DeviceClassHub : ℕ := 0x09
def DeviceClassVideo : ℕ := 0x0E
def DeviceClassAudioVideo : ℕ := 0x10
def DeviceClassDiagnostic : ℕ := 0xDC
def DeviceClassWireless : ℕ := 0xE0
def DeviceClassVendorSpecific : ℕ := 0xFF

-- libusb speed constant: LIBUSB_SPEED_FULL = 2.
def LIBUSB_SPEED_FULL : ℕ := 2

-- libusb endpoint attribute mask: LIBUSB_TRANSFER_TYPE_MASK = 0x03.
def LIBUSB_TRANSFER_TYPE_MASK : ℕ := 0x03

/-! Descriptor tree as read through libusb_get_active_config_descriptor. -/

structure EndpointDescriptor where
  bEndpointAddress : ℕ
  bmAttributes : ℕ
  wMaxPacketSize : ℕ
deriving DecidableEq

structure AltSetting where
  bInterfaceClass : ℕ
  endpoints : List EndpointDescriptor
deriving DecidableEq

structure UsbInterface where
  altsettings : List AltSetting
deriving DecidableEq

structure ConfigDescriptor where
  interfaces : List UsbInterface
deriving DecidableEq

/-- A connected device as the security core sees it: identity, descriptor
byte bDeviceClass, libusb speed code, open state, and the active config
descriptor (none models libusb_get_active_config_descriptor failing). -/
structure UsbDevice where
  identifier : DeviceIdentifier
  deviceClassCode : ℕ
  speed : ℕ
  isOpen : Bool
  config : Option ConfigDescriptor
deriving DecidableEq

/-- The endpoint transfer type exactly as SecurityManager::validateDeviceProtocol
computes it: bmAttributes & LIBUSB_TRANSFER_TYPE_MASK, i.e. mod 4. -/
def endpointTransferType (ep : EndpointDescriptor) : ℕ :=
  ep.bmAttributes % (LIBUSB_TRANSFER_TYPE_MASK + 1)

/-! ## Shared list helpers (std::deque bounded FIFO, std::map as assoc list) -/

/-- The while size > max pop_front loop used by every bounded history in the
code: keep only the last n elements. -/
def pruneTo (l : List α) (n : ℕ) : List α := l.drop (l.length - n)

/-- std::map find. -/
def alFind (m : List (String × β)) (k : String) : Option β :=
  match m.find? (fun p => p.1 == k) with
  | some p => some p.2
  | none => none

/-- std::map lookup with a default for an absent key. -/
def alGetD (m : List (String × β)) (k : String) (d : β) : β :=
  match m.find? (fun p => p.1 == k) with
  | some p => p.2
  | none => d

/-- std::map operator[] followed by assignment: update in place, or insert. -/
def alSet (m : List (String × β)) (k : String) (v : β) : List (String × β) :=
  match m with
  | [] => [(k, v)]
  | p :: rest => if p.1 == k then (k, v) :: rest else p :: alSet rest k v

/-! ## DeviceAuthorizer -/

structure AuthorizationPolicy where
  autoAuthorizeKnownDevices : Bool
  requireUserConfirmation : Bool
  checkDeviceCertificates : Bool
  enforceSystemPolicies : Bool
  authorizationTimeout : ℕ
deriving DecidableEq

/-- AuthorizationPolicy default member initializers (DeviceAuthorizer.hpp). -/
def defaultAuthorizationPolicy : AuthorizationPolicy :=
  { autoAuthorizeKnownDevices := true
    requireUserConfirmation := false
    checkDeviceCertificates := false
    enforceSystemPolicies := true
    authorizationTimeout := 30 }

structure AuthorizationResult where
  authorized : Bool
  reason : String
  timestamp : ℕ
  method : AuthorizationMethod
deriving DecidableEq

/-- SecurityManager::Private::enforceSecurityLevel: builds a fresh policy from
the default constructor and the per-level switch; for Custom it returns
without touching the authorizer policy (modelled as none). -/
def enforceSecurityLevel : SecurityLevel → Option AuthorizationPolicy
  | SecurityLevel.Low => some
      { autoAuthorizeKnownDevices := true
        requireUserConfirmation := false
        checkDeviceCertificates := false
        enforceSystemPolicies := false
        authorizationTimeout := 30 }
  | SecurityLevel.Medium => some
      { autoAuthorizeKnownDevices := true
        requireUserConfirmation := true
        checkDeviceCertificates := false
        enforceSystemPolicies := true
        authorizationTimeout := 30 }
  | SecurityLevel.High => some
      { autoAuthorizeKnownDevices := false
        requireUserConfirmation := true
        checkDeviceCertificates := true
        enforceSystemPolicies := true
        authorizationTimeout := 15 }
  | SecurityLevel.Custom => none

/-- The policy enforceSecurityLevel installs for SecurityLevel.High. -/
def highAuthorizationPolicy : AuthorizationPolicy :=
  { autoAuthorizeKnownDevices := false
    requireUserConfirmation := true
    checkDeviceCertificates := true
    enforceSystemPolicies := true
    authorizationTimeout := 15 }

/-- DeviceAuthState (per-device state of DeviceAuthorizer::Private). -/
structure DeviceAuthState where
  isAuthorized : Bool
  lastAuthAttempt : ℕ
  history : List AuthorizationResult
  maxHistorySize : ℕ
deriving DecidableEq

/-- Default-constructed DeviceAuthState (what deviceStates[device] creates). -/
def initialDeviceAuthState : DeviceAuthState :=
  { isAuthorized := false, lastAuthAttempt := 0, history := [], maxHistorySize := 100 }

/-- The trusted-certificate list, registered custom methods and active policy
that DeviceAuthorizer::Private carries across one authorizeDevice call. -/
structure AuthorizerCtx where
  policy : AuthorizationPolicy
  trustedCertificates : List String
  customMethods : List (String × (UsbDevice → AuthorizationResult))

/-- Private::pruneHistory applied after a push_back. -/
def pushHistory (st : DeviceAuthState) (r : AuthorizationResult) : DeviceAuthState :=
  { st with history := pruneTo (st.history ++ [r]) st.maxHistorySize }

/-- Private::isAuthorizationExpired: unauthorized counts as expired, otherwise
expired when at least 24 whole hours elapsed since lastAuthAttempt. -/
def isAuthorizationExpired (st : DeviceAuthState) (now : ℕ) : Bool :=
  if st.isAuthorized = false then true
  else decide (24 ≤ (now - st.lastAuthAttempt) / 3600)

/-- Private::createResult. -/
def createResult (authorized : Bool) (reason : String) (method : AuthorizationMethod)
    (now : ℕ) : AuthorizationResult :=
  { authorized := authorized, reason := reason, timestamp := now, method := method }

/-- The switch over device->deviceClass() in the auto-authorization branch. -/
def isKnownDeviceClass (c : ℕ) : Bool :=
  c == DeviceClassHID || c == DeviceClassHub || c == DeviceClassPrinter ||
    c == DeviceClassMassStorage

/-- DeviceAuthorizer::checkSystemPolicies. -/
def checkSystemPolicies (dev : Option UsbDevice) : Bool :=
  match dev with
  | none => false
  | some device =>
    if LIBUSB_SPEED_FULL < device.speed ∧
        (device.deviceClassCode = DeviceClassMassStorage ∨
         device.deviceClassCode = DeviceClassVideo ∨
         device.deviceClassCode = DeviceClassAudioVideo) then false
    else if device.deviceClassCode = DeviceClassVendorSpecific ∨
        device.deviceClassCode = DeviceClassDiagnostic ∨
        device.deviceClassCode = DeviceClassWireless then false
    else true

/-- DeviceAuthorizer::validateDeviceCertificate: fails exactly when
certificates are required but none are trusted. -/
def validateDeviceCertificate (ctx : AuthorizerCtx) (dev : Option UsbDevice) : Bool :=
  match dev with
  | none => false
  | some _ =>
    if ctx.policy.checkDeviceCertificates = true ∧ ctx.trustedCertificates = [] then false
    else true

/-- The decimal vendor:product key built with std::to_string in
authorizeDevice and in SecurityManager's authorizedDevices cache. -/
def deviceKey (id : DeviceIdentifier) : String :=
  toString id.vendorId ++ ":" ++ toString id.productId

/-- DeviceAuthorizer::promptUserForAuthorization. The message-box outcome is
an oracle parameter; a timeout fires QMessageBox::reject, i.e. answer false. -/
def promptUserForAuthorization (dev : Option UsbDevice) (userAnswer : Bool)
    (now : ℕ) : AuthorizationResult :=
  match dev with
  | none => createResult false "Invalid device" AuthorizationMethod.UserPrompt now
  | some _ =>
    createResult userAnswer
      (if userAnswer then "User authorized device" else "User denied authorization")
      AuthorizationMethod.UserPrompt now

/-- DeviceAuthorizer::authorizeDevice, returning the result together with the
device's updated DeviceAuthState. -/
def authorizeDevice (ctx : AuthorizerCtx) (dev : Option UsbDevice)
    (st : DeviceAuthState) (now : ℕ) (userAnswer : Bool) :
    AuthorizationResult × DeviceAuthState :=
  match dev with
  | none => (createResult false "Invalid device" AuthorizationMethod.Automatic now, st)
  | some device =>
    if st.isAuthorized = true ∧ isAuthorizationExpired st now = false then
      (createResult true "Already authorized" AuthorizationMethod.Automatic now, st)
    else
      let st1 : DeviceAuthState := { st with isAuthorized := false, lastAuthAttempt := now }
      if ctx.policy.autoAuthorizeKnownDevices = true ∧
          isKnownDeviceClass device.deviceClassCode = true then
        let r := createResult true "Known device type" AuthorizationMethod.Automatic now
        (r, pushHistory { st1 with isAuthorized := true } r)
      else if ctx.policy.enforceSystemPolicies = true ∧
          checkSystemPolicies (some device) = false then
        let r := createResult false "System policy violation" AuthorizationMethod.SystemPolicy now
        (r, pushHistory st1 r)
      else if ctx.policy.checkDeviceCertificates = true ∧
          validateDeviceCertificate ctx (some device) = false then
        let r := createResult false "Certificate validation failed" AuthorizationMethod.Certificate now
        (r, pushHistory st1 r)
      else
        let negCustom : Option AuthorizationResult :=
          match alFind ctx.customMethods (deviceKey device.identifier) with
          | some m => let r := m device; if r.authorized = true then none else some r
          | none => none
        match negCustom with
        | some r => (r, pushHistory st1 r)
        | none =>
          if ctx.policy.requireUserConfirmation = true then
            let r := promptUserForAuthorization (some device) userAnswer now
            let st2 := pushHistory st1 r
            (r, if r.authorized = true then { st2 with isAuthorized := true } else st2)
          else
            let r := createResult true "All checks passed" AuthorizationMethod.Automatic now
            (r, pushHistory { st1 with isAuthorized := true } r)

/-! ## SecurityManager -/

structure SecurityRule where
  vendorId : ℕ
  productId : ℕ
  isWhitelisted : Bool
  requireAuthorization : Bool
  securityLevel : SecurityLevel
  allowedInterfaces : List String
  expiryDate : ℕ
deriving DecidableEq

/-- Value-initialized SecurityRule (the C++ SecurityRule with braces used as
the default when no rule matches): zero ids, not whitelisted, level code 0,
no allowed interfaces, expiryDate at the epoch sentinel (0 = no expiry). -/
def defaultSecurityRule : SecurityRule :=
  { vendorId := 0, productId := 0, isWhitelisted := false, requireAuthorization := false
    securityLevel := SecurityLevel.Low, allowedInterfaces := [], expiryDate := 0 }

structure SecurityEventInfo where
  event : SecurityEvent
  timestamp : ℕ
  deviceId : String
  description : String
  securityLevel : SecurityLevel
deriving DecidableEq

/-- SecurityState from SecurityManager.cpp. -/
structure SecurityState where
  rules : List SecurityRule
  events : List SecurityEventInfo
  authorizedDevices : List (String × Bool)
  currentLevel : SecurityLevel
  maxEventHistory : ℕ
deriving DecidableEq

/-- SecurityState default member initializers. -/
def initialSecurityState : SecurityState :=
  { rules := [], events := [], authorizedDevices := []
    currentLevel := SecurityLevel.Medium, maxEventHistory := 10000 }

/-! Uppercase zero-padded hex, as produced by the stringstream formatting with
std::hex, std::uppercase, std::setw and std::setfill in SecurityManager.cpp. -/

def hexDigitChars : List Char := ['0', '1', '2', '3', '4', '5', '6', '7',
  '8', '9', 'A', 'B', 'C', 'D', 'E', 'F']

def hexDigit (n : ℕ) : Char := hexDigitChars.getD n (Char.ofNat 48)

/-- Hex digits of n, most significant first (empty for 0); fuel-recursive so
the kernel can evaluate it (the fuel n always suffices since n < 16 ^ n for
positive n). -/
def hexCharsAux : ℕ → ℕ → List Char
  | 0, _ => []
  | fuel + 1, n => if n = 0 then [] else hexCharsAux fuel (n / 16) ++ [hexDigit (n % 16)]

def hexChars (n : ℕ) : List Char := hexCharsAux n n

/-- setw w, setfill zero, hex, uppercase (setw pads, never truncates). -/
def padHex (w : ℕ) (n : ℕ) : String :=
  let s := hexChars n
  String.mk (List.replicate (w - s.length) (hexDigit 0) ++ s)

/-- The interface-class string identifier built in
SecurityManager::Private::validateDeviceInterfaces ("0x" plus two-digit
uppercase hex). -/
def interfaceClassId (c : ℕ) : String :=
  "0x" ++ padHex 2 c

/-- The stable VVVV:PPPP device identifier string of logSecurityEvent. -/
def deviceEventId (id : DeviceIdentifier) : String :=
  padHex 4 id.vendorId ++ ":" ++ padHex 4 id.productId

/-- SecurityManager::logSecurityEvent: append a SecurityEventInfo stamped with
the current security level, then prune the bounded deque; a null device is
ignored. -/
def logSecurityEvent (st : SecurityState) (event : SecurityEvent)
    (dev : Option UsbDevice) (description : String) (now : ℕ) : SecurityState :=
  match dev with
  | none => st
  | some device =>
    let info : SecurityEventInfo :=
      { event := event, timestamp := now
        deviceId := deviceEventId device.identifier
        description := description, securityLevel := st.currentLevel }
    { st with events := pruneTo (st.events ++ [info]) st.maxEventHistory }

/-- SecurityManager::Private::findMatchingRule: first rule with the device's
vendor and product id, else a value-initialized default rule. -/
def findMatchingRule (rules : List SecurityRule) (device : UsbDevice) : SecurityRule :=
  match rules.find? (fun r => r.vendorId == device.identifier.vendorId &&
      r.productId == device.identifier.productId) with
  | some r => r
  | none => defaultSecurityRule

/-- SecurityManager::Private::validateDeviceInterfaces: an empty allow-list
admits everything; otherwise every altsetting's interface-class string must be
in the allow-list, and a failed descriptor read fails validation. -/
def validateDeviceInterfaces (device : UsbDevice) (rule : SecurityRule) : Bool :=
  if rule.allowedInterfaces.isEmpty then true
  else
    match device.config with
    | none => false
    | some config =>
      config.interfaces.all (fun itf =>
        itf.altsettings.all (fun s =>
          rule.allowedInterfaces.contains (interfaceClassId s.bInterfaceClass)))

/-- SecurityManager::isDeviceAllowed, returning the decision together with the
state after the security events it logs. -/
def isDeviceAllowed (st : SecurityState) (dev : Option UsbDevice) (now : ℕ) :
    Bool × SecurityState :=
  match dev with
  | none => (false, st)
  | some device =>
    match alFind st.authorizedDevices (deviceKey device.identifier) with
    | some b => (b, st)
    | none =>
      let rule := findMatchingRule st.rules device
      if rule.isWhitelisted = false then
        (false, logSecurityEvent st SecurityEvent.UnauthorizedAccess (some device)
          "Device is not whitelisted" now)
      else if validateDeviceInterfaces device rule = false then
        (false, logSecurityEvent st SecurityEvent.PolicyViolation (some device)
          "Device uses unauthorized interfaces" now)
      else if rule.expiryDate ≠ 0 ∧ rule.expiryDate < now then
        (false, logSecurityEvent st SecurityEvent.PolicyViolation (some device)
          "Security rule has expired" now)
      else (true, st)

/-- SecurityManager::addSecurityRule: remove_if on the (vendorId, productId)
pair, then push_back the new rule. -/
def addSecurityRule (rules : List SecurityRule) (rule : SecurityRule) :
    List SecurityRule :=
  (rules.filter (fun existing =>
    !(existing.vendorId == rule.vendorId && existing.productId == rule.productId)))
    ++ [rule]

/-- Membership test on the (vendorId, productId) uniqueness key. -/
def matchesPair (v p : ℕ) (r : SecurityRule) : Bool :=
  r.vendorId == v && r.productId == p

/-! SecurityManager together with its DeviceAuthorizer's policy, and the Qt
signals setSecurityLevel can emit. -/

inductive ManagerSignal
  | securityLevelChanged (level : SecurityLevel)
  | configurationChanged
deriving DecidableEq

structure SecurityManagerState where
  state : SecurityState
  authorizerPolicy : AuthorizationPolicy
deriving DecidableEq

/-- State after the SecurityManager constructor: default SecurityState (level
Medium) and the default policy set in the DeviceAuthorizer constructor. -/
def initialSecurityManagerState : SecurityManagerState :=
  { state := initialSecurityState
    authorizerPolicy :=
      { autoAuthorizeKnownDevices := true, requireUserConfirmation := true
        checkDeviceCertificates := false, enforceSystemPolicies := true
        authorizationTimeout := 30 } }

/-- SecurityManager::setSecurityLevel: early return when the stored level
already equals the argument; otherwise store it, enforce the preset (a no-op
for Custom) and emit securityLevelChanged. -/
def setSecurityLevel (ms : SecurityManagerState) (level : SecurityLevel) :
    SecurityManagerState × List ManagerSignal :=
  if ms.state.currentLevel = level then (ms, [])
  else
    let ms1 : SecurityManagerState :=
      { ms with state := { ms.state with currentLevel := level } }
    let ms2 : SecurityManagerState :=
      match enforceSecurityLevel level with
      | some policy => { ms1 with authorizerPolicy := policy }
      | none => ms1
    (ms2, [ManagerSignal.securityLevelChanged level])

/-! ## PowerManager and BandwidthMonitor -/

structure PowerStats where
  currentUsage : ℚ
  voltage : ℚ
  powerUsage : ℚ
  selfPowered : Bool
  maxPower : ℕ
deriving DecidableEq

/-- PowerManager::Private: the per-device stats map and the set of device keys
that currently own a monitoring QTimer. Devices are identified here by the
registry key string (the pointer-keyed C++ maps are in bijection with the keys
of live devices). -/
structure PowerManagerState where
  deviceStats : List (String × PowerStats)
  monitoringTimers : List String
deriving DecidableEq

/-- PowerManager::stopMonitoring: stop and delete the timer if present, then
erase the stats entry; a null device is ignored. -/
def stopPowerMonitoring (st : PowerManagerState) (dev : Option String) :
    PowerManagerState :=
  match dev with
  | none => st
  | some k =>
    { deviceStats := st.deviceStats.filter (fun p => !(p.1 == k))
      monitoringTimers := st.monitoringTimers.filter (fun t => !(t == k)) }

def BANDWIDTH_WINDOW : ℕ := 5000

/-- Wraparound modulus of the uint64 byte counters. -/
def U64 : ℕ := 2 ^ 64

/-- TransferStats from BandwidthMonitor.cpp: per-direction deques of
(steady-clock milliseconds, cumulative bytes) samples plus running totals. -/
structure TransferStats where
  readHistory : List (ℕ × ℕ)
  writeHistory : List (ℕ × ℕ)
  totalBytesRead : ℕ
  totalBytesWritten : ℕ
deriving DecidableEq

structure BandwidthMonitorState where
  deviceStats : List (String × TransferStats)
  monitoringTimers : List String
deriving DecidableEq

/-- BandwidthMonitor::stopMonitoring: stop and delete the timer if present,
then erase the stats entry; a null device is ignored. -/
def stopBandwidthMonitoring (st : BandwidthMonitorState) (dev : Option String) :
    BandwidthMonitorState :=
  match dev with
  | none => st
  | some k =>
    { deviceStats := st.deviceStats.filter (fun p => !(p.1 == k))
      monitoringTimers := st.monitoringTimers.filter (fun t => !(t == k)) }

/-- The pop_front loop of Private::updateTransferStats: drop leading samples
older than BANDWIDTH_WINDOW milliseconds (Nat subtraction matches the signed
duration comparison because a nonpositive difference is never > 5000). -/
def pruneOldSamples (history : List (ℕ × ℕ)) (now : ℕ) : List (ℕ × ℕ) :=
  history.dropWhile (fun s => decide (BANDWIDTH_WINDOW < now - s.1))

/-- BandwidthMonitor::Private::updateTransferStats: advance the cumulative
total (uint64), append the (now, total) sample, prune the window. -/
def updateTransferStats (history : List (ℕ × ℕ)) (totalBytes : ℕ)
    (maxPacketSize : ℕ) (now : ℕ) : List (ℕ × ℕ) × ℕ :=
  let total := (totalBytes + maxPacketSize) % U64
  (pruneOldSamples (history ++ [(now, total)]) now, total)

/-- BandwidthMonitor::Private::calculateSpeed: 0 below 2 samples, otherwise
(back bytes − front bytes) divided by the elapsed seconds between front and
back, and 0 again when that span is not positive. The uint64 byte difference
is taken mod 2^64. -/
def calculateSpeed (history : List (ℕ × ℕ)) : ℚ :=
  if history.length < 2 then 0
  else
    let first := history.headD (0, 0)
    let last := history.getLastD (0, 0)
    let timeSpan : ℚ := ((last.1 : ℚ) - (first.1 : ℚ)) / 1000
    if 0 < timeSpan then (((last.2 + U64 - first.2) % U64 : ℕ) : ℚ) / timeSpan
    else 0

/-! ## DeviceManager -/

/-- DeviceManager::Private: the registry map (key string to device) plus the
two monitors it owns. -/
structure DeviceManagerState where
  devices : List (String × UsbDevice)
  powerMgr : PowerManagerState
  bwMonitor : BandwidthMonitorState
deriving DecidableEq

/-- The externally visible steps DeviceManager::handleDeviceRemoval performs,
in program order. -/
inductive RemovalEffect
  | eraseRegistry (key : String)
  | stopPowerMonitor (key : String)
  | stopBandwidthMonitor (key : String)
  | emitDeviceRemoved (key : String)
deriving DecidableEq

/-- DeviceManager::handleDeviceRemoval for the device with registry key
getDeviceIdentifier(device): under the devices mutex look the key up and, if
present, erase it; only then stop both monitors and emit deviceRemoved. An
absent key does nothing. The returned effect list records the order. -/
def handleDeviceRemoval (st : DeviceManagerState) (key : String) :
    DeviceManagerState × List RemovalEffect :=
  match alFind st.devices key with
  | none => (st, [])
  | some _ =>
    let st1 : DeviceManagerState :=
      { st with devices := st.devices.filter (fun p => !(p.1 == key)) }
    let st2 : DeviceManagerState :=
      { st1 with powerMgr := stopPowerMonitoring st1.powerMgr (some key) }
    let st3 : DeviceManagerState :=
      { st2 with bwMonitor := stopBandwidthMonitoring st2.bwMonitor (some key) }
    (st3, [RemovalEffect.eraseRegistry key, RemovalEffect.stopPowerMonitor key,
           RemovalEffect.stopBandwidthMonitor key, RemovalEffect.emitDeviceRemoved key])

/-- A power telemetry tick for a key can produce a sample only while that key
still owns a monitoring QTimer (stopMonitoring stops and deletes it). -/
def powerTickProducesSample (st : PowerManagerState) (key : String) : Bool :=
  decide (key ∈ st.monitoringTimers)

/-- A bandwidth telemetry tick for a key can produce a sample only while that
key still owns a monitoring QTimer. -/
def bandwidthTickProducesSample (st : BandwidthMonitorState) (key : String) : Bool :=
  decide (key ∈ st.monitoringTimers)

/-- The ordering the spec asserts for removal: every monitor-stop effect for
the key comes strictly before the registry erase for the key. -/
def stopsPrecedeErase (effects : List RemovalEffect) (key : String) : Prop :=
  ∀ i j, (effects.get? i = some (RemovalEffect.stopPowerMonitor key) ∨
          effects.get? i = some (RemovalEffect.stopBandwidthMonitor key)) →
    effects.get? j = some (RemovalEffect.eraseRegistry key) → i < j

/-! ## ProtocolAnalyzer -/

structure TransferRecord where
  timestamp : ℕ
  endpointAddress : ℕ
  data : List ℕ
  isInput : Bool
  status : ℤ
deriving DecidableEq

/-- ProtocolAnalyzer::Private: per-device transfer history and the shared
history cap. -/
structure AnalyzerState where
  transferHistory : List (String × List TransferRecord)
  maxHistorySize : ℕ
deriving DecidableEq

def initialAnalyzerState : AnalyzerState :=
  { transferHistory := [], maxHistorySize := 1000 }

/-- ProtocolAnalyzer::Private::recordTransfer: push_back onto the device's
history (default-created when absent) and trim it to maxHistorySize. -/
def recordTransfer (st : AnalyzerState) (dev : String) (r : TransferRecord) :
    AnalyzerState :=
  let history := alGetD st.transferHistory dev []
  { st with
    transferHistory :=
      alSet st.transferHistory dev (pruneTo (history ++ [r]) st.maxHistorySize) }

/-- ProtocolAnalyzer::setMaxHistorySize: store the new cap and trim every
existing per-device history to it. -/
def setMaxHistorySize (st : AnalyzerState) (size : ℕ) : AnalyzerState :=
  { transferHistory := st.transferHistory.map (fun p => (p.1, pruneTo p.2 size))
    maxHistorySize := size }

inductive AnalyzerOp
  | record (dev : String) (r : TransferRecord)
  | setMax (size : ℕ)
deriving DecidableEq

def applyAnalyzerOp (st : AnalyzerState) : AnalyzerOp → AnalyzerState
  | AnalyzerOp.record dev r => recordTransfer st dev r
  | AnalyzerOp.setMax n => setMaxHistorySize st n

def runAnalyzerOps (st : AnalyzerState) (ops : List AnalyzerOp) : AnalyzerState :=
  ops.foldl applyAnalyzerOp st

/-- The full sequence of records the operation list appends for a device, in
append order. -/
def appendedRecords (ops : List AnalyzerOp) (dev : String) : List TransferRecord :=
  ops.filterMap (fun op =>
    match op with
    | AnalyzerOp.record d r => if d == dev then some r else none
    | AnalyzerOp.setMax _ => none)

/-- Number of history records for an endpoint (the endpointFrequency map). -/
def endpointFrequency (history : List TransferRecord) (e : ℕ) : ℕ :=
  (history.filter (fun r => r.endpointAddress == e)).length

/-- Number of history records for an endpoint with non-zero status (the
errorCount map). -/
def errorCount (history : List TransferRecord) (e : ℕ) : ℕ :=
  (history.filter (fun r => r.endpointAddress == e && r.status != 0)).length

/-- Summed transfer size divided by frequency (the averageTransferSize map
after normalization). -/
def averageTransferSize (history : List TransferRecord) (e : ℕ) : ℚ :=
  ((history.filter (fun r => r.endpointAddress == e)).map
      (fun r => (r.data.length : ℚ))).sum / (endpointFrequency history e : ℚ)

/-- Keys of the endpointFrequency std::map in its ascending iteration order
(endpoint addresses are uint8). -/
def historyEndpoints (history : List TransferRecord) : List ℕ :=
  (List.range 256).filter (fun e => decide (0 < endpointFrequency history e))

/-- std::max_element over the frequency map with strict less on counts: the
first key of maximal frequency in ascending key order (0 when empty, matching
an uninitialized field that is never read because the caller requires a
non-empty history). -/
def primaryEndpoint (history : List TransferRecord) : ℕ :=
  match historyEndpoints history with
  | [] => 0
  | e :: rest =>
    rest.foldl (fun best x =>
      if endpointFrequency history best < endpointFrequency history x then x else best) e

/-- The regular-sizes scan: walk the averageTransferSize map in ascending key
order carrying the first non-zero average as the reference; any later average
differing by more than 1.0 makes the sizes irregular. -/
def regularSizesAux (history : List TransferRecord) : List ℕ → ℚ → Bool
  | [], _ => true
  | e :: rest, firstSize =>
    let avg := averageTransferSize history e
    if firstSize = 0 then regularSizesAux history rest avg
    else if 1 < |avg - firstSize| then false
    else regularSizesAux history rest firstSize

def hasRegularTransferSizes (history : List TransferRecord) : Bool :=
  regularSizesAux history (historyEndpoints history) 0

/-- The problematic-endpoint scan: iterate the errorCount std::map (keys with
at least one error, ascending) and keep those whose error rate exceeds 10%. -/
def problematicEndpoints (history : List TransferRecord) : List ℕ :=
  ((List.range 256).filter (fun e => decide (0 < errorCount history e))).filter
    (fun e => decide ((1 : ℚ) / 10 <
      (errorCount history e : ℚ) / (endpointFrequency history e : ℚ)))

/-- The per-tick pattern of ProtocolPattern, minus the device pointer (the
computation is per device already). -/
structure ProtocolPattern where
  timestamp : ℕ
  primaryEndpoint : ℕ
  hasRegularTransferSizes : Bool
  problematicEndpoints : List ℕ
deriving DecidableEq

/-- ProtocolAnalyzer::Private::analyzeTransferPatterns: returns early (none)
on an empty or absent history, otherwise emits one ProtocolPattern. -/
def analyzeTransferPatterns (history : List TransferRecord) (now : ℕ) :
    Option ProtocolPattern :=
  if history.isEmpty then none
  else some
    { timestamp := now
      primaryEndpoint := primaryEndpoint history
      hasRegularTransferSizes := hasRegularTransferSizes history
      problematicEndpoints := problematicEndpoints history }

/-! ## Concrete instances used by witnesses and counterexamples -/

/-- A vendor-specific-class device. -/
def devC1 : UsbDevice :=
  { identifier := { vendorId := 0x1234, productId := 0x5678, busNumber := 1, deviceAddress := 2 }
    deviceClassCode := DeviceClassVendorSpecific, speed := 3, isOpen := true, config := none }

/-- An authorizer context with the default policy and nothing registered. -/
def ctxNoCustom : AuthorizerCtx :=
  { policy := defaultAuthorizationPolicy, trustedCertificates := [], customMethods := [] }

/-- A device state that is still authorized and not expired at time 0. -/
def stC2 : DeviceAuthState :=
  { isAuthorized := true, lastAuthAttempt := 0, history := [], maxHistorySize := 100 }

def devKeyC3 : String := "1234:5678:01:02"

/-- A manager state with one registered device whose monitors are running. -/
def mgrC3 : DeviceManagerState :=
  { devices := [(devKeyC3, devC1)]
    powerMgr := { deviceStats := [], monitoringTimers := [devKeyC3] }
    bwMonitor := { deviceStats := [], monitoringTimers := [devKeyC3] } }

def ruleOther : SecurityRule :=
  { vendorId := 1, productId := 2, isWhitelisted := true, requireAuthorization := false
    securityLevel := SecurityLevel.Low, allowedInterfaces := [], expiryDate := 0 }

def ruleA : SecurityRule :=
  { vendorId := 0x1234, productId := 0x5678, isWhitelisted := false, requireAuthorization := true
    securityLevel := SecurityLevel.Low, allowedInterfaces := [], expiryDate := 0 }

def ruleB : SecurityRule :=
  { vendorId := 0x1234, productId := 0x5678, isWhitelisted := true, requireAuthorization := false
    securityLevel := SecurityLevel.High, allowedInterfaces := ["0x03"], expiryDate := 0 }

def recC5 : TransferRecord :=
  { timestamp := 0, endpointAddress := 1, data := [], isInput := true, status := 0 }

def opsC5 : List AnalyzerOp := List.replicate 1500 (AnalyzerOp.record "dev" recC5)

/-- Endpoint-1 records with non-zero and zero status, endpoint-2 likewise. -/
def recE1err : TransferRecord :=
  { timestamp := 0, endpointAddress := 1, data := [], isInput := true, status := 1 }

def recE1ok : TransferRecord :=
  { timestamp := 0, endpointAddress := 1, data := [], isInput := true, status := 0 }

def recE2err : TransferRecord :=
  { timestamp := 0, endpointAddress := 2, data := [], isInput := true, status := 1 }

def recE2ok : TransferRecord :=
  { timestamp := 0, endpointAddress := 2, data := [], isInput := true, status := 0 }

/-- 100 transfers on endpoint 1 (11 failed) and 100 on endpoint 2 (10 failed). -/
def histC6 : List TransferRecord :=
  List.replicate 11 recE1err ++ List.replicate 89 recE1ok ++
    List.replicate 10 recE2err ++ List.replicate 90 recE2ok

def exampleTickTimes : List ℕ := (List.range 11).map (fun i => i * 100)

/-- The window produced by eleven updateTransferStats ticks 100 ms apart, each
advancing the cumulative byte total by 4096. -/
def exampleWindow : List (ℕ × ℕ) :=
  (exampleTickTimes.foldl (fun acc t => updateTransferStats acc.1 acc.2 4096 t) ([], 0)).1

def cfgC8 : ConfigDescriptor :=
  { interfaces := [{ altsettings := [{ bInterfaceClass := 0x08, endpoints := [] }] }] }

/-- A device exposing interface class 0x08. -/
def devC8 : UsbDevice :=
  { identifier := { vendorId := 0x1234, productId := 0x5678, busNumber := 1, deviceAddress := 3 }
    deviceClassCode := 0x08, speed := 2, isOpen := true, config := some cfgC8 }

def stC8 : SecurityState := { initialSecurityState with rules := [ruleB] }

/-! ## Helper lemmas -/

theorem pruneTo_length (l : List α) (n : ℕ) : (pruneTo l n).length = min n l.length := by
  simp [pruneTo]
  omega

theorem pruneTo_suffix (l : List α) (n : ℕ) : pruneTo l n <:+ l :=
  List.drop_suffix _ _

theorem isSuffix_append_right {s t : List α} (u : List α) (h : s <:+ t) :
    s ++ u <:+ t ++ u := by
  obtain ⟨w, hw⟩ := h
  exact ⟨w, by rw [← hw, List.append_assoc]⟩

theorem filter_filter_of_imp {p q : α → Bool} (l : List α)
    (h : ∀ a, p a = true → q a = true) :
    (l.filter q).filter p = l.filter p := by
  induction l with
  | nil => rfl
  | cons a t ih =>
    by_cases hp : p a = true
    · have hq := h a hp
      simp [List.filter_cons, hp, hq, ih]
    · by_cases hq : q a = true
      · simp [List.filter_cons, hp, hq, ih]
      · simp [List.filter_cons, hp, hq, ih]

theorem filter_filter_of_conflict {p q : α → Bool} (l : List α)
    (h : ∀ a, q a = true → p a = false) :
    (l.filter q).filter p = [] := by
  rw [List.filter_eq_nil_iff]
  intro a ha
  have hq := (List.mem_filter.mp ha).2
  simp [h a hq]

theorem addSecurityRule_filter_self (rules : List SecurityRule) (r : SecurityRule) :
    (addSecurityRule rules r).filter (matchesPair r.vendorId r.productId) = [r] := by
  unfold addSecurityRule
  rw [List.filter_append]
  have h1 : ((rules.filter fun existing =>
      !(existing.vendorId == r.vendorId && existing.productId == r.productId)).filter
        (matchesPair r.vendorId r.productId)) = [] := by
    apply filter_filter_of_conflict
    intro a ha
    rw [Bool.not_eq_true'] at ha
    simpa [matchesPair] using ha
  rw [h1, List.nil_append]
  simp [matchesPair]

theorem addSecurityRule_filter_other (rules : List SecurityRule) (r : SecurityRule)
    (v p : ℕ) (hvp : ¬ (v = r.vendorId ∧ p = r.productId)) :
    (addSecurityRule rules r).filter (matchesPair v p) = rules.filter (matchesPair v p) := by
  unfold addSecurityRule
  rw [List.filter_append]
  have hr : [r].filter (matchesPair v p) = [] := by
    have hnot : ¬ (r.vendorId = v ∧ r.productId = p) :=
      fun hcon => hvp ⟨hcon.1.symm, hcon.2.symm⟩
    have hfalse : matchesPair v p r = false := by
      cases hbe : (r.vendorId == v && r.productId == p)
      · simpa [matchesPair] using hbe
      · exfalso
        simp only [Bool.and_eq_true, beq_iff_eq] at hbe
        exact hnot hbe
    simp [List.filter, hfalse]
  rw [hr, List.append_nil]
  apply filter_filter_of_imp
  intro a ha
  simp only [matchesPair, Bool.and_eq_true, beq_iff_eq] at ha
  have hnot : ¬ (a.vendorId = r.vendorId ∧ a.productId = r.productId) := by
    intro hcon
    exact hvp ⟨ha.1.symm.trans hcon.1, ha.2.symm.trans hcon.2⟩
  cases hbe : (a.vendorId == r.vendorId && a.productId == r.productId)
  · simp
  · exfalso
    simp only [Bool.and_eq_true, beq_iff_eq] at hbe
    exact hnot hbe

/-- The masked endpoint transfer type always lies in {0, 1, 2, 3}, which are
precisely the four standard codes (control, isochronous, bulk, interrupt): the
switch over it in validateDeviceProtocol covers every possible value, so its
default (rejection) branch can never run. -/
theorem endpointTransferType_lt_four (ep : EndpointDescriptor) :
    endpointTransferType ep < 4 :=
  Nat.mod_lt _ (by norm_num)

/-! ## Claim C1 -/

theorem checkSystemPolicies_vendor_specific (device : UsbDevice)
    (h : device.deviceClassCode = DeviceClassVendorSpecific) :
    checkSystemPolicies (some device) = false := by
  simp [checkSystemPolicies, h, DeviceClassVendorSpecific, DeviceClassMassStorage,
    DeviceClassVideo, DeviceClassAudioVideo, DeviceClassDiagnostic, DeviceClassWireless]

/-- Claim C1: with the High security preset (so the active policy is
autoAuthorize false, requireConfirm true, checkCert true, enforceSysPolicy
true, timeout 15 s), authorizeDevice on a vendor-specific-class (0xFF) device
with no cached unexpired authorization returns a denial with reason "System
policy violation" and method SystemPolicy. The trusted-certificate store, the
registered custom methods and the user answer are universally quantified and
absent from the result, so neither the certificate check, nor a custom method,
nor the user-confirmation step influences the outcome. -/
theorem high_level_vendor_specific_denied
    (device : UsbDevice) (st : DeviceAuthState) (now : ℕ)
    (certs : List String) (methods : List (String × (UsbDevice → AuthorizationResult)))
    (userAnswer : Bool)
    (hclass : device.deviceClassCode = DeviceClassVendorSpecific)
    (hcache : ¬ (st.isAuthorized = true ∧ isAuthorizationExpired st now = false)) :
    enforceSecurityLevel SecurityLevel.High = some highAuthorizationPolicy ∧
    (authorizeDevice (AuthorizerCtx.mk highAuthorizationPolicy certs methods)
        (some device) st now userAnswer).1 =
      createResult false "System policy violation" AuthorizationMethod.SystemPolicy now := by
  refine ⟨rfl, ?_⟩
  have hsys := checkSystemPolicies_vendor_specific device hclass
  simp [authorizeDevice, hcache, hsys, highAuthorizationPolicy]

/-- Witness for C1 at a concrete vendor-specific device and a fresh state. -/
theorem high_level_vendor_specific_denied_witness :
    (authorizeDevice (AuthorizerCtx.mk highAuthorizationPolicy [] [])
        (some devC1) initialDeviceAuthState 5 true).1 =
      createResult false "System policy violation" AuthorizationMethod.SystemPolicy 5 :=
  (high_level_vendor_specific_denied devC1 initialDeviceAuthState 5 [] [] true rfl
    (by decide)).2

/-! ## Claim C2 -/

/-- Claim C2 counterexample: for a device that is still authorized and not
expired, authorizeDevice returns the cached success "Already authorized"
without appending that result to the device's authorization history (the
history stays empty instead of gaining the returned result). -/
theorem cached_path_skips_history_append :
    (authorizeDevice ctxNoCustom (some devC1) stC2 0 false).1.reason = "Already authorized" ∧
    (authorizeDevice ctxNoCustom (some devC1) stC2 0 false).1.authorized = true ∧
    ¬ ((authorizeDevice ctxNoCustom (some devC1) stC2 0 false).2.history =
        stC2.history ++ [(authorizeDevice ctxNoCustom (some devC1) stC2 0 false).1]) := by
  refine ⟨rfl, rfl, ?_⟩
  decide

/-- Claim C2 amended: on every call with a non-null device that does not take
the cached-success path, the returned AuthorizationResult is appended to the
device's history (bounded FIFO, cap maxHistorySize = 100) before returning,
and the stored history never exceeds the cap. The cached-success path returns
"Already authorized" leaving the history untouched. -/
theorem authorize_appends_result_noncached
    (ctx : AuthorizerCtx) (device : UsbDevice) (st : DeviceAuthState) (now : ℕ) (ua : Bool)
    (hnc : ¬ (st.isAuthorized = true ∧ isAuthorizationExpired st now = false)) :
    (authorizeDevice ctx (some device) st now ua).2.history =
      pruneTo (st.history ++ [(authorizeDevice ctx (some device) st now ua).1])
        st.maxHistorySize ∧
    (authorizeDevice ctx (some device) st now ua).2.history.length ≤ st.maxHistorySize := by
  have key : (authorizeDevice ctx (some device) st now ua).2.history =
      pruneTo (st.history ++ [(authorizeDevice ctx (some device) st now ua).1])
        st.maxHistorySize := by
    simp only [authorizeDevice]
    rw [if_neg hnc]
    split
    · rfl
    · split
      · rfl
      · split
        · rfl
        · split
          · rfl
          · split
            · split
              · rfl
              · rfl
            · rfl
  refine ⟨key, ?_⟩
  rw [key, pruneTo_length]
  exact Nat.min_le_left _ _

/-- Witness for the amended C2 on a concrete non-cached call. -/
theorem authorize_appends_result_noncached_witness :
    (authorizeDevice ctxNoCustom (some devC1) initialDeviceAuthState 7 false).2.history =
      pruneTo (initialDeviceAuthState.history ++
        [(authorizeDevice ctxNoCustom (some devC1) initialDeviceAuthState 7 false).1])
        initialDeviceAuthState.maxHistorySize ∧
    (authorizeDevice ctxNoCustom (some devC1) initialDeviceAuthState 7 false).2.history.length ≤
      initialDeviceAuthState.maxHistorySize :=
  authorize_appends_result_noncached ctxNoCustom devC1 initialDeviceAuthState 7 false
    (by decide)

/-! ## Claim C4 -/

/-- Claim C4: adding two SecurityRules for the same (vendorId, productId) pair
leaves exactly one rule for that pair, carrying the second call's field
values, while the rules filtered to any other pair are unchanged. -/
theorem addSecurityRule_replaces (rules : List SecurityRule) (r1 r2 : SecurityRule)
    (hv : r1.vendorId = r2.vendorId) (hp : r1.productId = r2.productId) :
    (addSecurityRule (addSecurityRule rules r1) r2).filter
        (matchesPair r2.vendorId r2.productId) = [r2] ∧
    ∀ v p, ¬ (v = r2.vendorId ∧ p = r2.productId) →
      (addSecurityRule (addSecurityRule rules r1) r2).filter (matchesPair v p) =
        rules.filter (matchesPair v p) := by
  constructor
  · exact addSecurityRule_filter_self _ r2
  · intro v p hvp
    rw [addSecurityRule_filter_other _ r2 v p hvp,
      addSecurityRule_filter_other _ r1 v p (by rw [hv, hp]; exact hvp)]

/-- Witness for C4 with the pair (0x1234, 0x5678) added twice next to an
unrelated rule for the pair (1, 2). -/
theorem addSecurityRule_replaces_witness :
    (addSecurityRule (addSecurityRule [ruleOther] ruleA) ruleB).filter
        (matchesPair ruleB.vendorId ruleB.productId) = [ruleB] ∧
    (addSecurityRule (addSecurityRule [ruleOther] ruleA) ruleB).filter (matchesPair 1 2) =
      [ruleOther].filter (matchesPair 1 2) := by
  have h := addSecurityRule_replaces [ruleOther] ruleA ruleB rfl rfl
  exact ⟨h.1, h.2 1 2 (by decide)⟩

/-! ## Claim C10 -/

/-- Claim C10: setSecurityLevel with the currently stored level (Medium right
after construction) returns immediately: the whole manager state is unchanged
and no signal is emitted; only a different level stores the new level, applies
the preset policy rewrite, and emits securityLevelChanged. -/
theorem setSecurityLevel_frame (ms : SecurityManagerState) (level : SecurityLevel) :
    initialSecurityManagerState.state.currentLevel = SecurityLevel.Medium ∧
    (ms.state.currentLevel = level → setSecurityLevel ms level = (ms, [])) ∧
    (ms.state.currentLevel ≠ level →
      (setSecurityLevel ms level).2 = [ManagerSignal.securityLevelChanged level] ∧
      (setSecurityLevel ms level).1.state.currentLevel = level ∧
      ∀ p, enforceSecurityLevel level = some p →
        (setSecurityLevel ms level).1.authorizerPolicy = p) := by
  refine ⟨rfl, ?_, ?_⟩
  · intro h
    simp [setSecurityLevel, h]
  · intro h
    refine ⟨?_, ?_, ?_⟩
    · simp [setSecurityLevel, h]
    · simp only [setSecurityLevel, if_neg h]
      split
      · rfl
      · rfl
    · intro p hp
      simp [setSecurityLevel, h, hp]

/-- Witness for C10: the no-op call at construction level Medium, and the
High call rewriting the authorizer policy. -/
theorem setSecurityLevel_frame_witness :
    setSecurityLevel initialSecurityManagerState SecurityLevel.Medium =
      (initialSecurityManagerState, []) ∧
    (setSecurityLevel initialSecurityManagerState SecurityLevel.High).1.authorizerPolicy =
      highAuthorizationPolicy := by
  refine ⟨(setSecurityLevel_frame initialSecurityManagerState SecurityLevel.Medium).2.1 rfl, ?_⟩
  exact ((setSecurityLevel_frame initialSecurityManagerState SecurityLevel.High).2.2
    (by decide)).2.2 highAuthorizationPolicy rfl

/-! ## Claim C8 -/

/-- Claim C8: for a device absent from the authorized-devices cache whose
first matching rule is whitelisted, unexpired and restricted to
allowedInterfaces = ["0x03"], isDeviceAllowed returns false when the device
declares an interface class 0x08, and the denial is logged as a
PolicyViolation security event ("Device uses unauthorized interfaces") in the
returned state; an empty allowedInterfaces list passes interface validation
for every device. -/
theorem interface_restriction_denial
    (st : SecurityState) (device : UsbDevice) (now : ℕ) (cfg : ConfigDescriptor)
    (hcache : alFind st.authorizedDevices (deviceKey device.identifier) = none)
    (hwhite : (findMatchingRule st.rules device).isWhitelisted = true)
    (hallow : (findMatchingRule st.rules device).allowedInterfaces = ["0x03"])
    (hexp : (findMatchingRule st.rules device).expiryDate = 0 ∨
      now ≤ (findMatchingRule st.rules device).expiryDate)
    (hcfg : device.config = some cfg)
    (hbad : ∃ itf, itf ∈ cfg.interfaces ∧ ∃ s, s ∈ itf.altsettings ∧
      s.bInterfaceClass = 0x08) :
    (isDeviceAllowed st (some device) now).1 = false ∧
    (isDeviceAllowed st (some device) now).2.events =
      pruneTo (st.events ++
        [{ event := SecurityEvent.PolicyViolation, timestamp := now
           deviceId := deviceEventId device.identifier
           description := "Device uses unauthorized interfaces"
           securityLevel := st.currentLevel }]) st.maxEventHistory ∧
    (∀ dev2 rule2, rule2.allowedInterfaces = ([] : List String) →
      validateDeviceInterfaces dev2 rule2 = true) := by
  have h08 : interfaceClassId 0x08 = "0x08" := by decide
  have hval : validateDeviceInterfaces device (findMatchingRule st.rules device) = false := by
    obtain ⟨itf, hitf, s, hs, hcls⟩ := hbad
    simp only [validateDeviceInterfaces, hallow, hcfg]
    rw [if_neg (by simp)]
    rw [Bool.eq_false_iff]
    intro hall
    rw [List.all_eq_true] at hall
    have h1 := hall itf hitf
    rw [List.all_eq_true] at h1
    have h2 := h1 s hs
    rw [hcls, h08] at h2
    exact absurd h2 (by decide)
  refine ⟨?_, ?_, ?_⟩
  · simp [isDeviceAllowed, hcache, hwhite, hval]
  · simp [isDeviceAllowed, hcache, hwhite, hval, logSecurityEvent]
  · intro dev2 rule2 hempty
    simp [validateDeviceInterfaces, hempty]

/-- Witness for C8 at a concrete whitelisted rule restricted to "0x03" and a
device exposing interface class 0x08. -/
theorem interface_restriction_denial_witness :
    (isDeviceAllowed stC8 (some devC8) 42).1 = false ∧
    (isDeviceAllowed stC8 (some devC8) 42).2.events =
      pruneTo (stC8.events ++
        [{ event := SecurityEvent.PolicyViolation, timestamp := 42
           deviceId := deviceEventId devC8.identifier
           description := "Device uses unauthorized interfaces"
           securityLevel := stC8.currentLevel }]) stC8.maxEventHistory := by
  have h := interface_restriction_denial stC8 devC8 42 cfgC8 rfl rfl rfl (Or.inl rfl) rfl
    ⟨{ altsettings := [{ bInterfaceClass := 0x08, endpoints := [] }] }, by decide,
     { bInterfaceClass := 0x08, endpoints := [] }, by decide, rfl⟩
  exact ⟨h.1, h.2.1⟩

/-! ## Claim C3 -/

theorem alFind_filter_ne (m : List (String × β)) (k : String) :
    alFind (m.filter (fun p => !(p.1 == k))) k = none := by
  simp only [alFind]
  have : (m.filter (fun p => !(p.1 == k))).find? (fun p => p.1 == k) = none := by
    rw [List.find?_eq_none]
    intro x hx
    have hne := (List.mem_filter.mp hx).2
    rw [Bool.not_eq_true'] at hne
    simp [hne]
  rw [this]

theorem not_mem_filter_ne (l : List String) (k : String) :
    k ∉ l.filter (fun t => !(t == k)) := by
  intro hk
  have hne := (List.mem_filter.mp hk).2
  simp at hne

/-- Claim C3 counterexample: for a state holding one registered, monitored
device, handleDeviceRemoval erases the registry record first and stops the
monitors only afterwards, so the claimed ordering (monitors stopped before
the record is dropped) is violated. -/
theorem removal_stop_order_refuted :
    ¬ stopsPrecedeErase (handleDeviceRemoval mgrC3 devKeyC3).2 devKeyC3 := by
  intro h
  have heff : (handleDeviceRemoval mgrC3 devKeyC3).2 =
      [RemovalEffect.eraseRegistry devKeyC3, RemovalEffect.stopPowerMonitor devKeyC3,
       RemovalEffect.stopBandwidthMonitor devKeyC3, RemovalEffect.emitDeviceRemoved devKeyC3] := by
    decide
  have hlt := h 1 0 (Or.inl (by rw [heff]; rfl)) (by rw [heff]; rfl)
  omega

/-- Claim C3 amended: removal of a present key erases the record from the
registry first (under the devices mutex), then stops the power and bandwidth
monitors, and only then emits the deviceRemoved event; after the call neither
monitor still owns a timer for the key, so no telemetry sample for that key is
produced after the removal event fires; removal for an absent key is a
no-op. -/
theorem handleDeviceRemoval_order (st : DeviceManagerState) (key : String) :
    (alFind st.devices key = none → handleDeviceRemoval st key = (st, [])) ∧
    (∀ dev, alFind st.devices key = some dev →
      (handleDeviceRemoval st key).2 =
        [RemovalEffect.eraseRegistry key, RemovalEffect.stopPowerMonitor key,
         RemovalEffect.stopBandwidthMonitor key, RemovalEffect.emitDeviceRemoved key] ∧
      alFind (handleDeviceRemoval st key).1.devices key = none ∧
      powerTickProducesSample (handleDeviceRemoval st key).1.powerMgr key = false ∧
      bandwidthTickProducesSample (handleDeviceRemoval st key).1.bwMonitor key = false) := by
  constructor
  · intro h
    simp [handleDeviceRemoval, h]
  · intro dev h
    refine ⟨?_, ?_, ?_, ?_⟩
    · simp [handleDeviceRemoval, h]
    · simp only [handleDeviceRemoval, h]
      exact alFind_filter_ne st.devices key
    · simp only [handleDeviceRemoval, h, powerTickProducesSample, stopPowerMonitoring]
      exact decide_eq_false (not_mem_filter_ne _ key)
    · simp only [handleDeviceRemoval, h, bandwidthTickProducesSample, stopBandwidthMonitoring]
      exact decide_eq_false (not_mem_filter_ne _ key)

/-- Witness for the amended C3 at a concrete one-device state, plus the no-op
case for an absent key. -/
theorem handleDeviceRemoval_order_witness :
    handleDeviceRemoval mgrC3 "absent" = (mgrC3, []) ∧
    (handleDeviceRemoval mgrC3 devKeyC3).2 =
      [RemovalEffect.eraseRegistry devKeyC3, RemovalEffect.stopPowerMonitor devKeyC3,
       RemovalEffect.stopBandwidthMonitor devKeyC3, RemovalEffect.emitDeviceRemoved devKeyC3] ∧
    powerTickProducesSample (handleDeviceRemoval mgrC3 devKeyC3).1.powerMgr devKeyC3 = false ∧
    bandwidthTickProducesSample (handleDeviceRemoval mgrC3 devKeyC3).1.bwMonitor devKeyC3 =
      false := by
  have h1 := (handleDeviceRemoval_order mgrC3 "absent").1 (by decide)
  have h2 := (handleDeviceRemoval_order mgrC3 devKeyC3).2 devC1 (by decide)
  exact ⟨h1, h2.1, h2.2.2.1, h2.2.2.2⟩

/-! ## Claim C7 -/

/-- Claim C7: calculateSpeed on a time-ordered sample window with monotone
cumulative byte counters equals (last cumulative − first cumulative) divided
by the elapsed seconds between first and last sample once at least two samples
are present, and is 0 below two samples (the elapsed-zero guard and the
rational division-by-zero convention both yield 0, so the equation also covers
coinciding timestamps). -/
theorem bandwidth_speed_law (history : List (ℕ × ℕ)) :
    (history.length < 2 → calculateSpeed history = 0) ∧
    (2 ≤ history.length →
      (history.headD (0, 0)).1 ≤ (history.getLastD (0, 0)).1 →
      (history.headD (0, 0)).2 ≤ (history.getLastD (0, 0)).2 →
      (history.getLastD (0, 0)).2 - (history.headD (0, 0)).2 < U64 →
      calculateSpeed history =
        (((history.getLastD (0, 0)).2 - (history.headD (0, 0)).2 : ℕ) : ℚ) /
          ((((history.getLastD (0, 0)).1 : ℚ) - ((history.headD (0, 0)).1 : ℚ)) / 1000)) := by
  constructor
  · intro h
    simp [calculateSpeed, h]
  · intro h2 ht hb hlt
    have hnlt : ¬ history.length < 2 := by omega
    have hmod : ((history.getLastD (0, 0)).2 + U64 - (history.headD (0, 0)).2) % U64 =
        (history.getLastD (0, 0)).2 - (history.headD (0, 0)).2 := by
      have he : (history.getLastD (0, 0)).2 + U64 - (history.headD (0, 0)).2 =
          ((history.getLastD (0, 0)).2 - (history.headD (0, 0)).2) + U64 := by omega
      rw [he, Nat.add_mod_right]
      exact Nat.mod_eq_of_lt hlt
    simp only [calculateSpeed, if_neg hnlt]
    by_cases hts : (0 : ℚ) <
        (((history.getLastD (0, 0)).1 : ℚ) - ((history.headD (0, 0)).1 : ℚ)) / 1000
    · rw [if_pos hts, hmod]
    · rw [if_neg hts]
      have hge : (0 : ℚ) ≤
          ((history.getLastD (0, 0)).1 : ℚ) - ((history.headD (0, 0)).1 : ℚ) := by
        have hc := (Nat.cast_le (α := ℚ)).mpr ht
        linarith
      have hle : ((history.getLastD (0, 0)).1 : ℚ) - ((history.headD (0, 0)).1 : ℚ) ≤ 0 := by
        have := le_of_not_lt hts
        linarith
      have hz : ((history.getLastD (0, 0)).1 : ℚ) - ((history.headD (0, 0)).1 : ℚ) = 0 :=
        le_antisymm hle hge
      rw [hz]
      simp

/-- Witness for C7: eleven samples 100 ms apart whose cumulative bytes grow by
4096 per tick, built by iterating updateTransferStats; the speed is exactly
40960 bytes per second. -/
theorem bandwidth_speed_law_witness :
    calculateSpeed exampleWindow = 40960 := by
  have h := (bandwidth_speed_law exampleWindow).2 (by decide) (by decide) (by decide) (by decide)
  have e2 : exampleWindow.headD (0, 0) = (0, 4096) := by decide
  have e3 : exampleWindow.getLastD (0, 0) = (1000, 45056) := by decide
  rw [h, e2, e3]
  norm_num

/-! ## Claim C6 -/

/-- Claim C6: in every protocol-analysis evaluation over a non-empty transfer
history, an endpoint is listed in ProtocolPattern.problematicEndpoints exactly
when its error rate (records with non-zero status over total records for that
endpoint) strictly exceeds 10 percent. -/
theorem problematic_iff_error_rate (history : List TransferRecord) (now : ℕ)
    (pat : ProtocolPattern) (hpat : analyzeTransferPatterns history now = some pat)
    (e : ℕ) (he : e < 256) :
    e ∈ pat.problematicEndpoints ↔
      (1 : ℚ) / 10 < (errorCount history e : ℚ) / (endpointFrequency history e : ℚ) := by
  have hp : pat.problematicEndpoints = problematicEndpoints history := by
    unfold analyzeTransferPatterns at hpat
    split at hpat
    · exact absurd hpat (by simp)
    · have hq := Option.some.inj hpat
      rw [← hq]
  rw [hp]
  unfold problematicEndpoints
  constructor
  · intro hmem
    have h1 := List.mem_filter.mp hmem
    exact of_decide_eq_true h1.2
  · intro hrate
    have hcnt : 0 < errorCount history e := by
      by_contra hc
      push_neg at hc
      have h0 : errorCount history e = 0 := by omega
      rw [h0] at hrate
      norm_num at hrate
    exact List.mem_filter.mpr
      ⟨List.mem_filter.mpr ⟨List.mem_range.mpr he, decide_eq_true hcnt⟩,
       decide_eq_true hrate⟩

set_option maxRecDepth 8000 in
/-- Witness for C6 on the 100-transfer histories: endpoint 1 with 11 failures
out of 100 is flagged, endpoint 2 with exactly 10 out of 100 is not. -/
theorem problematic_iff_error_rate_witness :
    (1 : ℕ) ∈ problematicEndpoints histC6 ∧ (2 : ℕ) ∉ problematicEndpoints histC6 := by
  have hpat : analyzeTransferPatterns histC6 0 = some
      { timestamp := 0, primaryEndpoint := primaryEndpoint histC6
        hasRegularTransferSizes := hasRegularTransferSizes histC6
        problematicEndpoints := problematicEndpoints histC6 } := rfl
  have e1 : errorCount histC6 1 = 11 := by decide
  have f1 : endpointFrequency histC6 1 = 100 := by decide
  have e2 : errorCount histC6 2 = 10 := by decide
  have f2 : endpointFrequency histC6 2 = 100 := by decide
  have hr1 : (1 : ℚ) / 10 < (errorCount histC6 1 : ℚ) / (endpointFrequency histC6 1 : ℚ) := by
    rw [e1, f1]
    norm_num
  have hr2 : ¬ ((1 : ℚ) / 10 <
      (errorCount histC6 2 : ℚ) / (endpointFrequency histC6 2 : ℚ)) := by
    rw [e2, f2]
    norm_num
  exact ⟨(problematic_iff_error_rate histC6 0 _ hpat 1 (by norm_num)).mpr hr1,
    fun hmem => hr2 ((problematic_iff_error_rate histC6 0 _ hpat 2 (by norm_num)).mp hmem)⟩

/-! ## Claim C5 -/

theorem alGetD_cons (p : String × β) (m : List (String × β)) (k : String) (d : β) :
    alGetD (p :: m) k d = if p.1 = k then p.2 else alGetD m k d := by
  by_cases h : p.1 = k
  · have hb : (p.1 == k) = true := by simp [h]
    simp [alGetD, List.find?, hb, h]
  · have hb : (p.1 == k) = false := by simp [h]
    simp [alGetD, List.find?, hb, h]

theorem alGetD_alSet_self (m : List (String × β)) (k : String) (v d : β) :
    alGetD (alSet m k v) k d = v := by
  induction m with
  | nil => simp [alSet, alGetD_cons]
  | cons p rest ih =>
    simp only [alSet]
    by_cases h : p.1 = k
    · rw [if_pos (by simp [h]), alGetD_cons, if_pos rfl]
    · rw [if_neg (by simp [h]), alGetD_cons, if_neg h]
      exact ih

theorem alGetD_alSet_ne (m : List (String × β)) (k k2 : String) (v d : β)
    (h : k ≠ k2) :
    alGetD (alSet m k v) k2 d = alGetD m k2 d := by
  induction m with
  | nil => simp [alSet, alGetD_cons, h, alGetD]
  | cons p rest ih =>
    simp only [alSet]
    by_cases hp : p.1 = k
    · rw [if_pos (by simp [hp]), alGetD_cons, alGetD_cons, if_neg h,
        if_neg (by rw [hp]; exact h)]
    · rw [if_neg (by simp [hp]), alGetD_cons, alGetD_cons, ih]

theorem alGetD_mapVal (m : List (String × β)) (k : String) (d : β) (f : β → β)
    (hf : f d = d) :
    alGetD (m.map (fun p => (p.1, f p.2))) k d = f (alGetD m k d) := by
  induction m with
  | nil => simp [alGetD, hf]
  | cons p rest ih =>
    simp only [List.map_cons]
    rw [alGetD_cons, alGetD_cons]
    by_cases h : p.1 = k
    · simp [h]
    · simp [h, ih]

theorem appendedRecords_cons_record_self (ops : List AnalyzerOp) (dev : String)
    (r : TransferRecord) :
    appendedRecords (AnalyzerOp.record dev r :: ops) dev = r :: appendedRecords ops dev := by
  simp [appendedRecords]

theorem appendedRecords_cons_record_ne (ops : List AnalyzerOp) (d dev : String)
    (r : TransferRecord) (h : d ≠ dev) :
    appendedRecords (AnalyzerOp.record d r :: ops) dev = appendedRecords ops dev := by
  simp [appendedRecords, h]

theorem appendedRecords_cons_setMax (ops : List AnalyzerOp) (n : ℕ) (dev : String) :
    appendedRecords (AnalyzerOp.setMax n :: ops) dev = appendedRecords ops dev := by
  simp [appendedRecords]

theorem appendedRecords_replicate (n : ℕ) (dev : String) (r : TransferRecord) :
    appendedRecords (List.replicate n (AnalyzerOp.record dev r)) dev =
      List.replicate n r := by
  induction n with
  | zero => rfl
  | succ k ih =>
    rw [List.replicate_succ, appendedRecords_cons_record_self, ih, List.replicate_succ]

theorem runOps_invariant (ops : List AnalyzerOp) (st : AnalyzerState) (dev : String)
    (hlen : (alGetD st.transferHistory dev []).length ≤ st.maxHistorySize) :
    ((alGetD (runAnalyzerOps st ops).transferHistory dev []).length ≤
      (runAnalyzerOps st ops).maxHistorySize) ∧
    ((alGetD (runAnalyzerOps st ops).transferHistory dev []) <:+
      (alGetD st.transferHistory dev [] ++ appendedRecords ops dev)) ∧
    ((∀ op ∈ ops, ∃ d r, op = AnalyzerOp.record d r) →
      (runAnalyzerOps st ops).maxHistorySize = st.maxHistorySize ∧
      (alGetD (runAnalyzerOps st ops).transferHistory dev []).length =
        min ((alGetD st.transferHistory dev []).length +
          (appendedRecords ops dev).length) st.maxHistorySize) := by
  induction ops generalizing st with
  | nil =>
    refine ⟨hlen, by simp [runAnalyzerOps, appendedRecords], ?_⟩
    intro _
    refine ⟨rfl, ?_⟩
    simp only [runAnalyzerOps, List.foldl_nil, appendedRecords, List.filterMap_nil,
      List.length_nil]
    omega
  | cons op rest ih =>
    have hrun : runAnalyzerOps st (op :: rest) =
        runAnalyzerOps (applyAnalyzerOp st op) rest := rfl
    cases op with
    | record d r =>
      by_cases hd : d = dev
      · subst hd
        have hhist : alGetD (recordTransfer st d r).transferHistory d [] =
            pruneTo (alGetD st.transferHistory d [] ++ [r]) st.maxHistorySize := by
          simp only [recordTransfer]
          exact alGetD_alSet_self _ _ _ _
        have hcap : (recordTransfer st d r).maxHistorySize = st.maxHistorySize := rfl
        have hlen1 : (alGetD (recordTransfer st d r).transferHistory d []).length ≤
            (recordTransfer st d r).maxHistorySize := by
          rw [hhist, hcap, pruneTo_length]
          exact Nat.min_le_left _ _
        obtain ⟨ih1, ih2, ih3⟩ := ih (recordTransfer st d r) hlen1
        rw [hrun]
        simp only [applyAnalyzerOp]
        refine ⟨ih1, ?_, ?_⟩
        · rw [appendedRecords_cons_record_self]
          have hfin : (alGetD st.transferHistory d [] ++ [r]) ++ appendedRecords rest d =
              alGetD st.transferHistory d [] ++ (r :: appendedRecords rest d) := by
            rw [List.append_assoc]
            rfl
          rw [← hfin]
          have ih2a := ih2
          rw [hhist] at ih2a
          exact ih2a.trans (isSuffix_append_right _ (pruneTo_suffix _ _))
        · intro hall
          have hall1 : ∀ op ∈ rest, ∃ d2 r2, op = AnalyzerOp.record d2 r2 :=
            fun op hop => hall op (List.mem_cons_of_mem _ hop)
          obtain ⟨ihcap, ihmin⟩ := ih3 hall1
          rw [hcap] at ihcap
          rw [hhist, pruneTo_length] at ihmin
          refine ⟨ihcap, ?_⟩
          rw [ihmin, appendedRecords_cons_record_self, hcap]
          simp only [List.length_append, List.length_cons, List.length_nil]
          omega
      · have hhist : alGetD (recordTransfer st d r).transferHistory dev [] =
            alGetD st.transferHistory dev [] := by
          simp only [recordTransfer]
          exact alGetD_alSet_ne _ _ _ _ _ hd
        have hcap : (recordTransfer st d r).maxHistorySize = st.maxHistorySize := rfl
        obtain ⟨ih1, ih2, ih3⟩ := ih (recordTransfer st d r)
          (by rw [hhist, hcap]; exact hlen)
        rw [hrun, appendedRecords_cons_record_ne _ _ _ _ hd]
        simp only [applyAnalyzerOp]
        rw [hhist] at ih2
        refine ⟨ih1, ih2, ?_⟩
        intro hall
        have hall1 : ∀ op ∈ rest, ∃ d2 r2, op = AnalyzerOp.record d2 r2 :=
          fun op hop => hall op (List.mem_cons_of_mem _ hop)
        obtain ⟨ihcap, ihmin⟩ := ih3 hall1
        rw [hcap] at ihcap
        rw [hhist] at ihmin
        exact ⟨ihcap, ihmin⟩
    | setMax n =>
      have hhist : alGetD (setMaxHistorySize st n).transferHistory dev [] =
          pruneTo (alGetD st.transferHistory dev []) n := by
        simp only [setMaxHistorySize]
        exact alGetD_mapVal _ _ _ (fun h => pruneTo h n) (by simp [pruneTo])
      have hcap : (setMaxHistorySize st n).maxHistorySize = n := rfl
      have hlen1 : (alGetD (setMaxHistorySize st n).transferHistory dev []).length ≤
          (setMaxHistorySize st n).maxHistorySize := by
        rw [hhist, hcap, pruneTo_length]
        exact Nat.min_le_left _ _
      obtain ⟨ih1, ih2, ih3⟩ := ih (setMaxHistorySize st n) hlen1
      rw [hrun, appendedRecords_cons_setMax]
      simp only [applyAnalyzerOp]
      refine ⟨ih1, ?_, ?_⟩
      · rw [hhist] at ih2
        exact ih2.trans (isSuffix_append_right _ (pruneTo_suffix _ _))
      · intro hall
        exfalso
        obtain ⟨d2, r2, habs⟩ := hall (AnalyzerOp.setMax n) (List.mem_cons_self _ _)
        exact AnalyzerOp.noConfusion habs

/-- Claim C5: after any sequence of recordTransfer and setMaxHistorySize
operations from the initial analyzer state (default cap 1000), every device's
stored history holds at most the current cap, is exactly a suffix of the full
append sequence for that device (the most recently appended records, oldest
first, oldest evicted first), and for setMax-free sequences its length is
exactly min(appended, 1000). -/
theorem protocol_history_bounded (ops : List AnalyzerOp) (dev : String) :
    ((alGetD (runAnalyzerOps initialAnalyzerState ops).transferHistory dev []).length ≤
      (runAnalyzerOps initialAnalyzerState ops).maxHistorySize) ∧
    ((alGetD (runAnalyzerOps initialAnalyzerState ops).transferHistory dev []) <:+
      appendedRecords ops dev) ∧
    ((∀ op ∈ ops, ∃ d r, op = AnalyzerOp.record d r) →
      (alGetD (runAnalyzerOps initialAnalyzerState ops).transferHistory dev []).length =
        min (appendedRecords ops dev).length 1000) := by
  have h0 : alGetD initialAnalyzerState.transferHistory dev [] =
      ([] : List TransferRecord) := rfl
  obtain ⟨h1, h2, h3⟩ := runOps_invariant ops initialAnalyzerState dev (by rw [h0]; simp)
  rw [h0] at h2
  refine ⟨h1, by simpa using h2, ?_⟩
  intro hall
  obtain ⟨hc, hm⟩ := h3 hall
  rw [h0] at hm
  simpa using hm

/-- Witness for C5: appending 1500 records with the default cap 1000 leaves a
history of exactly 1000 records that is a suffix of the appended sequence. -/
theorem protocol_history_bounded_witness :
    ((alGetD (runAnalyzerOps initialAnalyzerState opsC5).transferHistory "dev" []).length =
      1000) ∧
    ((alGetD (runAnalyzerOps initialAnalyzerState opsC5).transferHistory "dev" []) <:+
      appendedRecords opsC5 "dev") := by
  have h := protocol_history_bounded opsC5 "dev"
  have hall : ∀ op ∈ opsC5, ∃ d r, op = AnalyzerOp.record d r := by
    intro op hop
    have hop2 : op ∈ List.replicate 1500 (AnalyzerOp.record "dev" recC5) := hop
    exact ⟨"dev", recC5, List.eq_of_mem_replicate hop2⟩
  have happ : (appendedRecords opsC5 "dev").length = 1500 := by
    show (appendedRecords (List.replicate 1500 (AnalyzerOp.record "dev" recC5))
      "dev").length = 1500
    rw [appendedRecords_replicate, List.length_replicate]
  have hm := h.2.2 hall
  rw [happ] at hm
  exact ⟨by rw [hm]; decide, h.2.1⟩

end USBMonitor
